import Mathlib

/-!
Shallow embedding of `src/faceit_games.py` (class `FaceitStatsGrabber`).

The HTTP layer is abstracted: a run of `fetch_games` is driven by the list of
history-page responses the upstream would return (one entry per history
request, in request order) and by a function `statsOf` giving the response to
the match-stats request for each match id.  Python dictionaries read with
`.get` are modelled by association lists (`PyDict`) or by structures with
`Option` fields mirroring the keys actually consumed; Python truthiness of the
values involved (None, empty string, zero, empty dict) is modelled explicitly.
The one Python exception reachable in `fetch_games` — `IndexError` from
`stats.get("rounds", [{}])[0]` when `rounds` is present but an empty list —
is modelled by `Except.error`.
-/

/-- A Python dict with string values, read via `dict.get(key, default)`. -/
abbrev PyDict := List (String × String)

/-- `d.get(k, dflt)` on a Python dict. -/
def dget (d : PyDict) (k dflt : String) : String :=
  match d.find? (fun kv => kv.1 == k) with
  | some kv => kv.2
  | none => dflt

/-- A player entry inside a team of round 0 of a match detail.
`player_id` and `player_stats` are the two keys the code reads. -/
structure Player where
  player_id : Option String
  player_stats : Option PyDict
deriving DecidableEq, Repr

/-- A team entry; only the `players` key is read (default `[]`). -/
structure Team where
  players : Option (List Player)
deriving DecidableEq, Repr

/-- A round entry; the code reads `teams` (default `[]`) and
`round_stats` (default `\x7b\x7d`). -/
structure Round where
  teams : Option (List Team)
  round_stats : Option PyDict
deriving DecidableEq, Repr

/-- The empty dict used as default element in `stats.get("rounds", [\x7b\x7d])`. -/
def Round.emptyDict : Round := ⟨none, none⟩

/-- A match-stats response body; only the `rounds` key is read. -/
structure MatchDetail where
  rounds : Option (List Round)
deriving DecidableEq, Repr

/-- One item of a history page: the code reads `match_id` and `started_at`. -/
structure MatchSummary where
  match_id : Option String
  started_at : Option Nat
deriving DecidableEq, Repr

/-- Result of one `get_match_history` call: either a dict containing `error`
(and `message`) — produced for non-200 status or a transport exception — or a
success body whose `items` key may be absent. -/
inductive HistoryResp where
| err (error message : String)
| ok (items : Option (List MatchSummary))
deriving DecidableEq, Repr

/-- Result of one `get_match_stats` call, same error contract. -/
inductive StatsResp where
| err (error message : String)
| ok (detail : MatchDetail)
deriving DecidableEq, Repr

/-- The flat record dict appended to `all_matches` for one processed match. -/
structure ExportRecord where
  nickname : String
  match_id : String
  date : String
  map_name : String
  score : String
  kills : String
  deaths : String
  assists : String
  kd : String
  hs : String
  mvps : String
  result : String
deriving DecidableEq, Repr

/-- Two-digit zero padding, as in `strftime` fields `%m %d %H %M %S`. -/
def pad2 (n : Nat) : String := if n < 10 then "0" ++ toString n else toString n

/-- Gregorian date from days since the Unix epoch (standard civil-from-days
algorithm), embedding `datetime.fromtimestamp(ts, tz=timezone.utc)`. -/
def civilFromDays (z0 : Nat) : Nat × Nat × Nat :=
  let z := z0 + 719468
  let era := z / 146097
  let doe := z % 146097
  let yoe := (doe - doe / 1460 + doe / 36524 - doe / 146096) / 365
  let doy := doe - (365 * yoe + yoe / 4 - yoe / 100)
  let mp := (5 * doy + 2) / 153
  let d := doy - (153 * mp + 2) / 5 + 1
  let m := if mp < 10 then mp + 3 else mp - 9
  let y := yoe + era * 400
  (if m ≤ 2 then y + 1 else y, m, d)

/-- `datetime.fromtimestamp(ts, tz=timezone.utc).strftime("%Y-%m-%d %H:%M:%S")`
for a non-negative Unix timestamp in seconds. -/
def formatTimestamp (ts : Nat) : String :=
  let ymd := civilFromDays (ts / 86400)
  let secs := ts % 86400
  toString ymd.1 ++ "-" ++ pad2 ymd.2.1 ++ "-" ++ pad2 ymd.2.2 ++ " " ++
    pad2 (secs / 3600) ++ ":" ++ pad2 (secs % 3600 / 60) ++ ":" ++ pad2 (secs % 60)

/-- The inner player loop: scanning `team.get("players", [])`, the variable
`player_stats` is assigned `player.get("player_stats", \x7b\x7d)` at the first
player whose `player_id` equals the target, then the loop breaks; `none` means
no player in this team matched (the variable is left unchanged). -/
def findInTeam (pid : String) : List Player → Option PyDict
| [] => none
| p :: ps =>
  if p.player_id = some pid then some (p.player_stats.getD []) else findInTeam pid ps

/-- Python truthiness of the `player_stats` variable: `None` and the empty
dict are falsy. -/
def pyTruthy : Option PyDict → Bool
| none => false
| some d => !d.isEmpty

/-- The outer team loop: after each team the variable `player_stats` (here
`cur`) is possibly updated by the inner loop, and the loop breaks as soon as
the variable is truthy. -/
def teamSearch (pid : String) : Option PyDict → List Team → Option PyDict
| cur, [] => cur
| cur, t :: ts =>
  let cur2 := match findInTeam pid (t.players.getD []) with
    | some s => some s
    | none => cur
  if pyTruthy cur2 then cur2 else teamSearch pid cur2 ts

/-- The `match_data` dict built for one match (source lines 125-138). -/
def mkRecord (nickname mid : String) (ts : Nat) (r0 : Round) (ps : PyDict) :
    ExportRecord :=
  let rs := r0.round_stats.getD []
  { nickname := nickname
    match_id := mid
    date := formatTimestamp ts
    map_name := dget rs "Map" "N/A"
    score := dget rs "Score" "N/A"
    kills := dget ps "Kills" "0"
    deaths := dget ps "Deaths" "0"
    assists := dget ps "Assists" "0"
    kd := dget ps "K/D Ratio" "0"
    hs := dget ps "Headshots %" "0"
    mvps := dget ps "MVPs" "0"
    result := dget ps "Result" "N/A" }

/-- The body of the `for match in matches` loop for one match summary:
`Except.ok none` means the match is skipped (continue), `Except.ok (some r)`
means the record `r` is appended, `Except.error` models the uncaught
`IndexError` raised by `stats.get("rounds", [\x7b\x7d])[0]` when `rounds` is
present but empty. -/
def processMatch (statsOf : String → StatsResp) (pid nickname : String)
    (m : MatchSummary) : Except String (Option ExportRecord) :=
  match m.match_id, m.started_at with
  | some mid, some ts =>
    if mid = "" ∨ ts = 0 then Except.ok none
    else
      match statsOf mid with
      | StatsResp.err _ _ => Except.ok none
      | StatsResp.ok detail =>
        match (detail.rounds.getD [Round.emptyDict]).head? with
        | none => Except.error "IndexError: list index out of range"
        | some r0 =>
          match teamSearch pid none (r0.teams.getD []) with
          | none => Except.ok none
          | some ps =>
            if ps.isEmpty then Except.ok none
            else Except.ok (some (mkRecord nickname mid ts r0 ps))
  | _, _ => Except.ok none

/-- Processing of one page of match summaries, in page order; the records
appended during the page, or the first uncaught exception. -/
def processMatches (statsOf : String → StatsResp) (pid nickname : String) :
    List MatchSummary → Except String (List ExportRecord)
| [] => Except.ok []
| m :: ms =>
  match processMatch statsOf pid nickname m with
  | Except.error e => Except.error e
  | Except.ok rOpt =>
    match processMatches statsOf pid nickname ms with
    | Except.error e => Except.error e
    | Except.ok rest =>
      Except.ok (match rOpt with | none => rest | some r => r :: rest)

/-- Outcome of a run of `fetch_games`: the uncaught exception, the error dict
returned from a failed history request, or the final `all_matches` list.
`pending` marks a run that exhausted the supplied upstream responses with the
loop still about to issue another history request. -/
inductive FetchOutcome where
| raised (msg : String)
| errResult (error message : String)
| okResult (records : List ExportRecord)
| pending
deriving DecidableEq, Repr

/-- The `while True` loop of `fetch_games` (source lines 85-143), driven by
the list of history responses in request order; also counts the history
requests issued. -/
def fetchGamesLoop (statsOf : String → StatsResp) (pid nickname : String) :
    List HistoryResp → List ExportRecord → FetchOutcome × Nat
| [], _ => (FetchOutcome.pending, 0)
| h :: rest, acc =>
  match h with
  | HistoryResp.err e msg => (FetchOutcome.errResult e msg, 1)
  | HistoryResp.ok itemsOpt =>
    let ms := itemsOpt.getD []
    if ms.isEmpty then (FetchOutcome.okResult acc, 1)
    else
      match processMatches statsOf pid nickname ms with
      | Except.error exnMsg => (FetchOutcome.raised exnMsg, 1)
      | Except.ok new =>
        let r := fetchGamesLoop statsOf pid nickname rest (acc ++ new)
        (r.1, r.2 + 1)

/-- `fetch_games(player_id, game_id, nickname)`: accumulator starts empty;
`game_id` only parametrises the request URL, which the response list
abstracts. -/
def fetch_games (statsOf : String → StatsResp) (pid _game_id nickname : String)
    (pages : List HistoryResp) : FetchOutcome × Nat :=
  fetchGamesLoop statsOf pid nickname pages []

/-- One `requests.get` outcome for the player search: a response with status,
parsed `player_id` field of the JSON body, and raw text, or a raised
`RequestException` with its message. -/
inductive HttpResult where
| resp (status : Nat) (player_id : Option String) (text : String)
| exn (msg : String)
deriving DecidableEq, Repr

/-- Return value of `find_player_id`: the `player_id` field passed through
as-is (possibly absent), or the error dict. -/
inductive FindPlayerResult where
| idResult (v : Option String)
| err (error message : String)
deriving DecidableEq, Repr

/-- `find_player_id(nickname)` (source lines 17-34), as a function of the
upstream response to the lookup request. -/
def find_player_id (r : HttpResult) : FindPlayerResult :=
  match r with
  | HttpResult.resp status pidField text =>
    if status = 200 then FindPlayerResult.idResult pidField
    else FindPlayerResult.err ("Player search failed with status " ++ toString status) text
  | HttpResult.exn msg => FindPlayerResult.err "Player search error" msg

/-- Return value of `export_to_excel`: an error dict (with optional
`message`) or the success dict. -/
inductive ExportResult where
| err (error : String) (message : Option String)
| success (message : String)
deriving DecidableEq, Repr

/-- The apostrophe character, used in the export filename. -/
def apos : String := String.singleton (Char.ofNat 39)

/-- `export_to_excel(matches, nickname)` (source lines 147-161).  The
DataFrame construction and `to_excel` write are abstracted by `writeExcel`,
which returns `some e` when serialization raises an exception with message
`e` and `none` when the file write succeeds. -/
def export_to_excel (writeExcel : List ExportRecord → String → Option String)
    (ms : List ExportRecord) (nickname : String) : ExportResult :=
  if ms.isEmpty then ExportResult.err "No matches to export" none
  else
    let filename := nickname ++ apos ++ "s faceit_games.xlsx"
    match writeExcel ms filename with
    | some e => ExportResult.err "Export error" (some e)
    | none =>
      ExportResult.success ("Exported " ++ toString ms.length ++ " matches to " ++ filename)

/-! ## Helper lemmas about the loops -/

/-- A history-page error dict aborts the loop at once. -/
theorem fetchGamesLoop_cons_err (statsOf : String → StatsResp) (pid nickname e emsg : String)
    (rest : List HistoryResp) (acc : List ExportRecord) :
    fetchGamesLoop statsOf pid nickname (HistoryResp.err e emsg :: rest) acc
      = (FetchOutcome.errResult e emsg, 1) := rfl

/-- A non-empty page whose processing returns records makes the loop recurse
into the remaining pages with the accumulator grown. -/
theorem fetchGamesLoop_cons_ok_proc (statsOf : String → StatsResp) (pid nickname : String)
    (ms : List MatchSummary) (new : List ExportRecord) (rest : List HistoryResp)
    (acc : List ExportRecord) (hne : ms ≠ [])
    (hproc : processMatches statsOf pid nickname ms = Except.ok new) :
    fetchGamesLoop statsOf pid nickname (HistoryResp.ok (some ms) :: rest) acc
      = ((fetchGamesLoop statsOf pid nickname rest (acc ++ new)).1,
         (fetchGamesLoop statsOf pid nickname rest (acc ++ new)).2 + 1) := by
  simp only [fetchGamesLoop, Option.getD_some]
  rw [if_neg (by simpa using hne), hproc]

/-- A non-empty page whose processing raises propagates the exception. -/
theorem fetchGamesLoop_cons_ok_raise (statsOf : String → StatsResp) (pid nickname : String)
    (ms : List MatchSummary) (ex : String) (rest : List HistoryResp)
    (acc : List ExportRecord) (hne : ms ≠ [])
    (hproc : processMatches statsOf pid nickname ms = Except.error ex) :
    fetchGamesLoop statsOf pid nickname (HistoryResp.ok (some ms) :: rest) acc
      = (FetchOutcome.raised ex, 1) := by
  simp only [fetchGamesLoop, Option.getD_some]
  rw [if_neg (by simpa using hne), hproc]

/-- A skipped match (`processMatch` returns `ok none`) can be removed from the
middle of a page without changing the page processing result. -/
theorem processMatches_skip_middle (statsOf : String → StatsResp) (pid nickname : String)
    (m : MatchSummary) (hpm : processMatch statsOf pid nickname m = Except.ok none) :
    ∀ ms₁ ms₂ : List MatchSummary,
      processMatches statsOf pid nickname (ms₁ ++ m :: ms₂)
        = processMatches statsOf pid nickname (ms₁ ++ ms₂) := by
  intro ms₁
  induction ms₁ with
  | nil =>
    intro ms₂
    simp only [List.nil_append, processMatches, hpm]
    cases hp : processMatches statsOf pid nickname ms₂ <;> simp
  | cons a as ih =>
    intro ms₂
    simp only [List.cons_append, processMatches, List.append_eq]
    rw [ih]

/-! ## Claim theorems -/

/-- C6: a match summary whose `match_id` or `started_at` field is absent is
skipped: no detail request is consulted (the result is the same for every
`statsOf`), no record is produced, and removing the summary from a page does
not change the page processing result. -/
theorem fetch_games_missing_summary_fields (pid nickname : String) (m : MatchSummary)
    (h : m.match_id = none ∨ m.started_at = none) :
    ∀ statsOf : String → StatsResp,
      processMatch statsOf pid nickname m = Except.ok none
      ∧ ∀ ms₁ ms₂ : List MatchSummary,
          processMatches statsOf pid nickname (ms₁ ++ m :: ms₂)
            = processMatches statsOf pid nickname (ms₁ ++ ms₂) := by
  intro statsOf
  have hpm : processMatch statsOf pid nickname m = Except.ok none := by
    rcases h with h | h
    · cases h2 : m.started_at <;> simp [processMatch, h, h2]
    · cases h1 : m.match_id <;> simp [processMatch, h, h1]
  exact ⟨hpm, processMatches_skip_middle statsOf pid nickname m hpm⟩

theorem fetch_games_missing_summary_fields_witness :
    processMatch (fun _ => StatsResp.err "e" "m") "P" "N" ⟨none, some 5⟩ = Except.ok none
    ∧ processMatches (fun _ => StatsResp.err "e" "m") "P" "N"
        ([⟨some "a", some 3⟩] ++ (⟨none, some 5⟩ : MatchSummary) :: [])
      = processMatches (fun _ => StatsResp.err "e" "m") "P" "N" ([⟨some "a", some 3⟩] ++ []) :=
  ⟨(fetch_games_missing_summary_fields "P" "N" ⟨none, some 5⟩ (Or.inl rfl) _).1,
   (fetch_games_missing_summary_fields "P" "N" ⟨none, some 5⟩ (Or.inl rfl) _).2 _ _⟩

/-- C7: a match whose detail fetch returns an error dict is skipped only
itself: it yields no record and does not raise, removing it from a page leaves
the page result unchanged, and the whole-run result (including processing of
later pages) is the same as if the match were absent. -/
theorem fetch_games_detail_error_skips (statsOf : String → StatsResp)
    (pid nickname : String) (m : MatchSummary) (mid e emsg : String) (ts : Nat)
    (hmid : m.match_id = some mid) (hts : m.started_at = some ts)
    (hmid0 : mid ≠ "") (hts0 : ts ≠ 0) (herr : statsOf mid = StatsResp.err e emsg) :
    processMatch statsOf pid nickname m = Except.ok none
    ∧ (∀ ms₁ ms₂ : List MatchSummary,
        processMatches statsOf pid nickname (ms₁ ++ m :: ms₂)
          = processMatches statsOf pid nickname (ms₁ ++ ms₂))
    ∧ (∀ (ms₁ ms₂ : List MatchSummary) (rest : List HistoryResp)
          (acc : List ExportRecord), ms₁ ++ ms₂ ≠ [] →
        fetchGamesLoop statsOf pid nickname
            (HistoryResp.ok (some (ms₁ ++ m :: ms₂)) :: rest) acc
          = fetchGamesLoop statsOf pid nickname
              (HistoryResp.ok (some (ms₁ ++ ms₂)) :: rest) acc) := by
  have hpm : processMatch statsOf pid nickname m = Except.ok none := by
    simp [processMatch, hmid, hts, hmid0, hts0, herr]
  refine ⟨hpm, processMatches_skip_middle statsOf pid nickname m hpm, ?_⟩
  intro ms₁ ms₂ rest acc hne
  have hp := processMatches_skip_middle statsOf pid nickname m hpm ms₁ ms₂
  cases hq : processMatches statsOf pid nickname (ms₁ ++ ms₂) with
  | error ex =>
    rw [fetchGamesLoop_cons_ok_raise statsOf pid nickname _ ex rest acc (by simp)
          (hp.trans hq),
        fetchGamesLoop_cons_ok_raise statsOf pid nickname _ ex rest acc hne hq]
  | ok new =>
    rw [fetchGamesLoop_cons_ok_proc statsOf pid nickname _ new rest acc (by simp)
          (hp.trans hq),
        fetchGamesLoop_cons_ok_proc statsOf pid nickname _ new rest acc hne hq]

theorem fetch_games_detail_error_skips_witness :
    processMatch (fun _ => StatsResp.err "E" "down") "P" "N" ⟨some "m1", some 7⟩
      = Except.ok none
    ∧ processMatches (fun _ => StatsResp.err "E" "down") "P" "N"
        ([] ++ (⟨some "m1", some 7⟩ : MatchSummary) :: [⟨none, none⟩])
      = processMatches (fun _ => StatsResp.err "E" "down") "P" "N" ([] ++ [⟨none, none⟩])
    ∧ fetchGamesLoop (fun _ => StatsResp.err "E" "down") "P" "N"
        (HistoryResp.ok (some ([] ++ (⟨some "m1", some 7⟩ : MatchSummary) :: [⟨none, none⟩]))
          :: [HistoryResp.ok (some [])]) []
      = fetchGamesLoop (fun _ => StatsResp.err "E" "down") "P" "N"
          (HistoryResp.ok (some ([] ++ [(⟨none, none⟩ : MatchSummary)]))
            :: [HistoryResp.ok (some [])]) [] := by
  have h := fetch_games_detail_error_skips (fun _ => StatsResp.err "E" "down") "P" "N"
    ⟨some "m1", some 7⟩ "m1" "E" "down" 7 rfl rfl (by decide) (by decide) rfl
  exact ⟨h.1, h.2.1 [] [⟨none, none⟩], h.2.2 [] [⟨none, none⟩] [HistoryResp.ok (some [])] []
    (by simp)⟩

/-- C2: if a history-page request returns an error dict after any number of
successfully processed non-empty pages, the run returns exactly that error
dict after `pref.length + 1` history requests — and the result does not
depend on the accumulator, so none of the records collected from earlier
pages appear in the return value. -/
theorem fetch_games_history_error_aborts (statsOf : String → StatsResp)
    (pid nickname e emsg : String) (pref rest : List HistoryResp)
    (hpref : ∀ p ∈ pref, ∃ ms recs, p = HistoryResp.ok (some ms) ∧ ms ≠ [] ∧
        processMatches statsOf pid nickname ms = Except.ok recs) :
    ∀ acc : List ExportRecord,
      fetchGamesLoop statsOf pid nickname (pref ++ HistoryResp.err e emsg :: rest) acc
        = (FetchOutcome.errResult e emsg, pref.length + 1) := by
  induction pref with
  | nil => intro acc; rfl
  | cons p ps ih =>
    intro acc
    obtain ⟨ms, recs, hp, hne, hproc⟩ := hpref p (List.mem_cons_self _ _)
    subst hp
    rw [List.cons_append, fetchGamesLoop_cons_ok_proc statsOf pid nickname ms recs _ acc
          hne hproc,
        ih (fun q hq => hpref q (List.mem_cons_of_mem _ hq)) (acc ++ recs)]
    simp [Nat.add_comm]

theorem fetch_games_history_error_aborts_witness :
    fetchGamesLoop (fun _ => StatsResp.err "x" "y") "P" "N"
        ([HistoryResp.ok (some [⟨none, none⟩])] ++ HistoryResp.err "E" "M" :: []) [mkRecord "N" "old" 0 Round.emptyDict [("Kills", "9")]]
      = (FetchOutcome.errResult "E" "M", 2) := by
  have h := fetch_games_history_error_aborts (fun _ => StatsResp.err "x" "y") "P" "N" "E" "M"
    [HistoryResp.ok (some [⟨none, none⟩])] []
    (by
      intro p hp
      simp only [List.mem_singleton] at hp
      subst hp
      exact ⟨[⟨none, none⟩], [], rfl, by simp, rfl⟩)
    [mkRecord "N" "old" 0 Round.emptyDict [("Kills", "9")]]
  simpa using h

/-- C8: exporting an empty record collection returns the error dict without
consulting the serializer (the result is the same for every `writeExcel`);
exporting `n` records with a non-raising serializer returns a success dict
whose message states exactly `n`. -/
theorem export_to_excel_spec (writeExcel : List ExportRecord → String → Option String)
    (ms : List ExportRecord) (nickname : String) :
    export_to_excel writeExcel [] nickname = ExportResult.err "No matches to export" none
    ∧ (ms ≠ [] →
        writeExcel ms (nickname ++ apos ++ "s faceit_games.xlsx") = none →
        export_to_excel writeExcel ms nickname
          = ExportResult.success ("Exported " ++ toString ms.length ++ " matches to "
              ++ (nickname ++ apos ++ "s faceit_games.xlsx"))) := by
  refine ⟨rfl, ?_⟩
  intro hne hw
  simp only [export_to_excel]
  rw [if_neg (by simpa using hne), hw]

theorem export_to_excel_spec_witness :
    export_to_excel (fun _ _ => none) [] "Kevzip" = ExportResult.err "No matches to export" none
    ∧ export_to_excel (fun _ _ => none)
        [mkRecord "Kevzip" "m1" 1748736000 Round.emptyDict []] "Kevzip"
      = ExportResult.success ("Exported "
          ++ toString [mkRecord "Kevzip" "m1" 1748736000 Round.emptyDict []].length
          ++ " matches to " ++ ("Kevzip" ++ apos ++ "s faceit_games.xlsx")) :=
  ⟨(export_to_excel_spec (fun _ _ => none)
      [mkRecord "Kevzip" "m1" 1748736000 Round.emptyDict []] "Kevzip").1,
   (export_to_excel_spec (fun _ _ => none)
      [mkRecord "Kevzip" "m1" 1748736000 Round.emptyDict []] "Kevzip").2 (by simp) rfl⟩

/-- C9: `find_player_id` returns the identifier (a non-error result) whenever
the response status is 200 and the body carries `player_id`, and returns the
structured error dict carrying the status message and the body text whenever
the status is not 200. -/
theorem find_player_id_spec :
    (∀ (pidField : Option String) (text v : String), pidField = some v →
        find_player_id (HttpResult.resp 200 pidField text)
          = FindPlayerResult.idResult (some v))
    ∧ (∀ (status : Nat) (pidField : Option String) (text : String), status ≠ 200 →
        find_player_id (HttpResult.resp status pidField text)
          = FindPlayerResult.err ("Player search failed with status " ++ toString status)
              text) := by
  constructor
  · intro pf t v h; subst h; rfl
  · intro s pf t h; simp [find_player_id, h]

theorem find_player_id_spec_witness :
    find_player_id (HttpResult.resp 200 (some "abc-123") "body")
      = FindPlayerResult.idResult (some "abc-123")
    ∧ find_player_id (HttpResult.resp 404 none "not found")
      = FindPlayerResult.err ("Player search failed with status " ++ toString 404)
          "not found" :=
  ⟨find_player_id_spec.1 (some "abc-123") "body" "abc-123" rfl,
   find_player_id_spec.2 404 none "not found" (by decide)⟩

/-- C10: a successful history response with no `items` key behaves exactly
like one with an empty item list — pagination ends normally with the records
accumulated so far — and a non-empty page with fewer than the limit (100)
items does not stop pagination: the loop proceeds to the next history
request. -/
theorem fetch_games_items_missing_and_short_page (statsOf : String → StatsResp)
    (pid nickname : String) (rest : List HistoryResp) (acc : List ExportRecord) :
    (fetchGamesLoop statsOf pid nickname (HistoryResp.ok none :: rest) acc
        = fetchGamesLoop statsOf pid nickname (HistoryResp.ok (some []) :: rest) acc
      ∧ fetchGamesLoop statsOf pid nickname (HistoryResp.ok none :: rest) acc
        = (FetchOutcome.okResult acc, 1))
    ∧ (∀ (ms : List MatchSummary) (new : List ExportRecord),
        ms ≠ [] → ms.length < 100 →
        processMatches statsOf pid nickname ms = Except.ok new →
        fetchGamesLoop statsOf pid nickname (HistoryResp.ok (some ms) :: rest) acc
          = ((fetchGamesLoop statsOf pid nickname rest (acc ++ new)).1,
             (fetchGamesLoop statsOf pid nickname rest (acc ++ new)).2 + 1)) := by
  refine ⟨⟨rfl, rfl⟩, ?_⟩
  intro ms new hne _ hproc
  exact fetchGamesLoop_cons_ok_proc statsOf pid nickname ms new rest acc hne hproc

theorem fetch_games_items_missing_and_short_page_witness :
    (fetchGamesLoop (fun _ => StatsResp.err "x" "y") "P" "N" [HistoryResp.ok none] []
        = fetchGamesLoop (fun _ => StatsResp.err "x" "y") "P" "N" [HistoryResp.ok (some [])] []
      ∧ fetchGamesLoop (fun _ => StatsResp.err "x" "y") "P" "N" [HistoryResp.ok none] []
        = (FetchOutcome.okResult [], 1))
    ∧ fetchGamesLoop (fun _ => StatsResp.err "x" "y") "P" "N"
        (HistoryResp.ok (some [⟨none, none⟩]) :: [HistoryResp.ok none]) []
      = ((fetchGamesLoop (fun _ => StatsResp.err "x" "y") "P" "N" [HistoryResp.ok none]
            ([] ++ [])).1,
         (fetchGamesLoop (fun _ => StatsResp.err "x" "y") "P" "N" [HistoryResp.ok none]
            ([] ++ [])).2 + 1) := by
  have h := fetch_games_items_missing_and_short_page (fun _ => StatsResp.err "x" "y")
    "P" "N" [HistoryResp.ok none] []
  exact ⟨(fetch_games_items_missing_and_short_page (fun _ => StatsResp.err "x" "y")
      "P" "N" [] []).1,
    h.2 [⟨none, none⟩] [] (by simp) (by decide) rfl⟩

/-- C3 (code bug): a match detail whose `rounds` key is present but an empty
list makes `fetch_games` raise an uncaught IndexError (from
`stats.get("rounds", [\x7b\x7d])[0]`) instead of silently skipping the match:
here the whole run aborts with the exception after one history request. -/
theorem fetch_games_empty_rounds_raises :
    fetch_games (fun _ => StatsResp.ok ⟨some []⟩) "P" "g" "N"
        [HistoryResp.ok (some [⟨some "m1", some 1748736000⟩])]
      = (FetchOutcome.raised "IndexError: list index out of range", 1) := by decide

/-- Request-count bound: on full pages followed by an empty page the loop
never consumes more than `pages.length + 1` responses, whatever `statsOf`
does. -/
theorem fetchGamesLoop_count_le (statsOf : String → StatsResp) (pid nickname : String)
    (extra : List HistoryResp) :
    ∀ pages : List HistoryResp,
      (∀ p ∈ pages, ∃ ms, p = HistoryResp.ok (some ms) ∧ ms.length = 100) →
      ∀ acc : List ExportRecord,
        (fetchGamesLoop statsOf pid nickname
            (pages ++ HistoryResp.ok (some []) :: extra) acc).2
          ≤ pages.length + 1 := by
  intro pages
  induction pages with
  | nil => intro _ acc; exact Nat.le_refl 1
  | cons p ps ih =>
    intro hfull acc
    obtain ⟨ms, hp, hlen⟩ := hfull p (List.mem_cons_self _ _)
    subst hp
    have hne : ms ≠ [] := by intro hc; rw [hc] at hlen; simp at hlen
    rw [List.cons_append]
    cases hq : processMatches statsOf pid nickname ms with
    | error ex =>
      rw [fetchGamesLoop_cons_ok_raise statsOf pid nickname ms ex _ acc hne hq]
      exact Nat.le_add_left 1 _
    | ok new =>
      rw [fetchGamesLoop_cons_ok_proc statsOf pid nickname ms new _ acc hne hq]
      exact Nat.succ_le_succ (ih (fun q hq2 => hfull q (List.mem_cons_of_mem _ hq2)) (acc ++ new))

/-- When every full page processes without an exception, the loop consumes
exactly the full pages plus the empty page and terminates normally. -/
theorem fetchGamesLoop_full_ok (statsOf : String → StatsResp) (pid nickname : String)
    (extra : List HistoryResp) :
    ∀ pages : List HistoryResp,
      (∀ p ∈ pages, ∃ ms, p = HistoryResp.ok (some ms) ∧ ms.length = 100) →
      (∀ ms, HistoryResp.ok (some ms) ∈ pages →
        ∃ recs, processMatches statsOf pid nickname ms = Except.ok recs) →
      ∀ acc : List ExportRecord, ∃ recs,
        fetchGamesLoop statsOf pid nickname
            (pages ++ HistoryResp.ok (some []) :: extra) acc
          = (FetchOutcome.okResult recs, pages.length + 1) := by
  intro pages
  induction pages with
  | nil => intro _ _ acc; exact ⟨acc, rfl⟩
  | cons p ps ih =>
    intro hfull hok acc
    obtain ⟨ms, hp, hlen⟩ := hfull p (List.mem_cons_self _ _)
    subst hp
    have hne : ms ≠ [] := by intro hc; rw [hc] at hlen; simp at hlen
    obtain ⟨new, hq⟩ := hok ms (List.mem_cons_self _ _)
    rw [List.cons_append]
    obtain ⟨recs, hrec⟩ := ih (fun q hq2 => hfull q (List.mem_cons_of_mem _ hq2))
      (fun ms2 hm2 => hok ms2 (List.mem_cons_of_mem _ hm2)) (acc ++ new)
    refine ⟨recs, ?_⟩
    rw [fetchGamesLoop_cons_ok_proc statsOf pid nickname ms new _ acc hne hq, hrec]
    simp

/-- C1 (counterexample): one full page of 100 matches followed by an empty
page, where every match detail carries `rounds: []`; the run raises on the
first match, issues only one history request and never terminates normally,
refuting "exactly N+1 requests with normal termination" at N = 1. -/
theorem fetch_games_pagination_counterexample :
    ¬ ((fetch_games (fun _ => StatsResp.ok ⟨some []⟩) "P" "g" "N"
          [HistoryResp.ok (some (List.replicate 100 (⟨some "m1", some 1⟩ : MatchSummary))),
           HistoryResp.ok (some [])]).2 = 1 + 1
        ∧ ∃ recs, (fetch_games (fun _ => StatsResp.ok ⟨some []⟩) "P" "g" "N"
            [HistoryResp.ok (some (List.replicate 100 (⟨some "m1", some 1⟩ : MatchSummary))),
             HistoryResp.ok (some [])]).1 = FetchOutcome.okResult recs) := by
  intro h
  exact absurd h.1 (by decide)

/-- C1 (amended): on N full pages (100 items each) followed by an empty page
and any further responses, `fetch_games` never issues an (N+2)th history
request; and provided no page raises the empty-`rounds` IndexError while
processing, it issues exactly N+1 requests and terminates normally. -/
theorem fetch_games_pagination_amended (statsOf : String → StatsResp)
    (pid game_id nickname : String) (firstPages extra : List HistoryResp)
    (hfull : ∀ p ∈ firstPages, ∃ ms, p = HistoryResp.ok (some ms) ∧ ms.length = 100) :
    (fetch_games statsOf pid game_id nickname
        (firstPages ++ HistoryResp.ok (some []) :: extra)).2 ≤ firstPages.length + 1
    ∧ ((∀ ms, HistoryResp.ok (some ms) ∈ firstPages →
          ∃ recs, processMatches statsOf pid nickname ms = Except.ok recs) →
        ∃ recs, fetch_games statsOf pid game_id nickname
            (firstPages ++ HistoryResp.ok (some []) :: extra)
          = (FetchOutcome.okResult recs, firstPages.length + 1)) :=
  ⟨fetchGamesLoop_count_le statsOf pid nickname extra firstPages hfull [],
   fun hok => fetchGamesLoop_full_ok statsOf pid nickname extra firstPages hfull hok []⟩

theorem fetch_games_pagination_amended_witness :
    (fetch_games (fun _ => StatsResp.err "x" "y") "P" "g" "N"
        ([HistoryResp.ok (some (List.replicate 100 (⟨none, none⟩ : MatchSummary)))]
          ++ HistoryResp.ok (some []) :: [HistoryResp.err "Z" "W"])).2 ≤ 1 + 1
    ∧ fetch_games (fun _ => StatsResp.err "x" "y") "P" "g" "N"
        ([HistoryResp.ok (some (List.replicate 100 (⟨none, none⟩ : MatchSummary)))]
          ++ HistoryResp.ok (some []) :: [HistoryResp.err "Z" "W"])
      = (FetchOutcome.okResult [], 1 + 1) := by
  have h := fetch_games_pagination_amended (fun _ => StatsResp.err "x" "y") "P" "g" "N"
    [HistoryResp.ok (some (List.replicate 100 (⟨none, none⟩ : MatchSummary)))]
    [HistoryResp.err "Z" "W"]
    (by
      intro p hp
      simp only [List.mem_singleton] at hp
      subst hp
      exact ⟨List.replicate 100 (⟨none, none⟩ : MatchSummary), rfl, by simp⟩)
  exact ⟨h.1, by decide⟩

/-- C4 (counterexample): a processed match whose detail contains a player
entry in round 0 with the target player id but no `player_stats` key is
skipped (the empty-dict default is falsy), so no record at all is appended,
refuting the claim that such a match always yields a record. -/
theorem fetch_games_record_fields_counterexample :
    fetch_games
        (fun _ => StatsResp.ok ⟨some [⟨some [⟨some [⟨some "P1", none⟩]⟩], none⟩]⟩)
        "P1" "g" "nick"
        [HistoryResp.ok (some [⟨some "m1", some 1748736000⟩]), HistoryResp.ok (some [])]
      = (FetchOutcome.okResult [], 2) := by decide

/-- C4 (amended): a processed match whose detail search finds the target
player with a truthy (non-empty) `player_stats` dict appends exactly the
record with nickname, match id, the timestamp formatted `YYYY-MM-DD HH:MM:SS`
in UTC, map and score from round 0 metadata with default "N/A", and each
statistic copied from the stats dict with default "0" ("N/A" for Result). -/
theorem fetch_games_record_fields_amended (statsOf : String → StatsResp)
    (pid game_id nickname mid : String) (ts : Nat) (detail : MatchDetail) (r0 : Round)
    (S : PyDict) (rest : List HistoryResp)
    (hmid : mid ≠ "") (hts : ts ≠ 0)
    (hstats : statsOf mid = StatsResp.ok detail)
    (hr0 : (detail.rounds.getD [Round.emptyDict]).head? = some r0)
    (hsearch : teamSearch pid none (r0.teams.getD []) = some S)
    (hS : S ≠ []) :
    fetch_games statsOf pid game_id nickname
        (HistoryResp.ok (some [⟨some mid, some ts⟩]) :: HistoryResp.ok (some []) :: rest)
      = (FetchOutcome.okResult (({
          nickname := nickname
          match_id := mid
          date := formatTimestamp ts
          map_name := dget (r0.round_stats.getD []) "Map" "N/A"
          score := dget (r0.round_stats.getD []) "Score" "N/A"
          kills := dget S "Kills" "0"
          deaths := dget S "Deaths" "0"
          assists := dget S "Assists" "0"
          kd := dget S "K/D Ratio" "0"
          hs := dget S "Headshots %" "0"
          mvps := dget S "MVPs" "0"
          result := dget S "Result" "N/A" } : ExportRecord) :: []), 2) := by
  have hpm : processMatch statsOf pid nickname ⟨some mid, some ts⟩
      = Except.ok (some (mkRecord nickname mid ts r0 S)) := by
    simp [processMatch, hmid, hts, hstats, hr0, hsearch, hS]
  have hproc : processMatches statsOf pid nickname [⟨some mid, some ts⟩]
      = Except.ok [mkRecord nickname mid ts r0 S] := by
    simp [processMatches, hpm]
  show fetchGamesLoop statsOf pid nickname _ [] = _
  rw [fetchGamesLoop_cons_ok_proc statsOf pid nickname _ _ _ [] (by simp) hproc]
  simp [fetchGamesLoop, mkRecord]

theorem fetch_games_record_fields_amended_witness :
    fetch_games
        (fun _ => StatsResp.ok ⟨some [⟨some [⟨some [⟨some "P1",
            some [("Kills", "25"), ("Score", "ignored")]⟩]⟩],
          some [("Map", "de_dust2"), ("Score", "13 / 9")]⟩]⟩)
        "P1" "g" "nick"
        (HistoryResp.ok (some [⟨some "m1", some 1748736000⟩])
          :: HistoryResp.ok (some []) :: [])
      = (FetchOutcome.okResult (({
          nickname := "nick"
          match_id := "m1"
          date := "2025-06-01 00:00:00"
          map_name := "de_dust2"
          score := "13 / 9"
          kills := "25"
          deaths := "0"
          assists := "0"
          kd := "0"
          hs := "0"
          mvps := "0"
          result := "N/A" } : ExportRecord) :: []), 2) := by
  have h := fetch_games_record_fields_amended
    (fun _ => StatsResp.ok ⟨some [⟨some [⟨some [⟨some "P1",
        some [("Kills", "25"), ("Score", "ignored")]⟩]⟩],
      some [("Map", "de_dust2"), ("Score", "13 / 9")]⟩]⟩)
    "P1" "g" "nick" "m1" 1748736000
    ⟨some [⟨some [⟨some [⟨some "P1", some [("Kills", "25"), ("Score", "ignored")]⟩]⟩],
      some [("Map", "de_dust2"), ("Score", "13 / 9")]⟩]⟩
    ⟨some [⟨some [⟨some "P1", some [("Kills", "25"), ("Score", "ignored")]⟩]⟩],
      some [("Map", "de_dust2"), ("Score", "13 / 9")]⟩
    [("Kills", "25"), ("Score", "ignored")] []
    (by decide) (by decide) rfl rfl (by decide) (by decide)
  rw [h]
  decide

/-- If the inner player loop sets the variable, some player of the team has
the target id and the assigned value is that player's stats dict. -/
theorem findInTeam_some (pid : String) :
    ∀ (ps : List Player) (s : PyDict), findInTeam pid ps = some s →
      ∃ p ∈ ps, p.player_id = some pid ∧ p.player_stats.getD [] = s := by
  intro ps
  induction ps with
  | nil => intro s h; simp [findInTeam] at h
  | cons p ps ih =>
    intro s h
    simp only [findInTeam] at h
    by_cases hid : p.player_id = some pid
    · rw [if_pos hid] at h
      injection h with h
      exact ⟨p, List.mem_cons_self _ _, hid, h⟩
    · rw [if_neg hid] at h
      obtain ⟨q, hq, h1, h2⟩ := ih s h
      exact ⟨q, List.mem_cons_of_mem _ hq, h1, h2⟩

/-- If no player in the team has the target id, the inner loop leaves the
variable unchanged. -/
theorem findInTeam_none (pid : String) :
    ∀ ps : List Player, (∀ p ∈ ps, p.player_id ≠ some pid) →
      findInTeam pid ps = none := by
  intro ps
  induction ps with
  | nil => intro _; rfl
  | cons p ps ih =>
    intro h
    simp only [findInTeam]
    rw [if_neg (h p (List.mem_cons_self _ _))]
    exact ih (fun q hq => h q (List.mem_cons_of_mem _ hq))

/-- A truthy (non-empty) final value of the team loop either was already the
incoming value or was assigned inside one of the teams. -/
theorem teamSearch_some_nonempty (pid : String) :
    ∀ (ts : List Team) (cur : Option PyDict) (S : PyDict),
      teamSearch pid cur ts = some S → S ≠ [] →
      cur = some S ∨ ∃ t ∈ ts, findInTeam pid (t.players.getD []) = some S := by
  intro ts
  induction ts with
  | nil => intro cur S h _; left; exact h
  | cons t ts ih =>
    intro cur S h hS
    simp only [teamSearch] at h
    cases hf : findInTeam pid (t.players.getD []) with
    | some s =>
      rw [hf] at h
      dsimp only at h
      by_cases htr : pyTruthy (some s)
      · rw [if_pos htr] at h
        injection h with h; subst h
        right; exact ⟨t, List.mem_cons_self _ _, hf⟩
      · rw [if_neg htr] at h
        rcases ih (some s) S h hS with hc | ⟨t2, ht2, hft2⟩
        · injection hc with hc; subst hc
          right; exact ⟨t, List.mem_cons_self _ _, hf⟩
        · right; exact ⟨t2, List.mem_cons_of_mem _ ht2, hft2⟩
    | none =>
      rw [hf] at h
      dsimp only at h
      by_cases htr : pyTruthy cur
      · rw [if_pos htr] at h
        left; exact h
      · rw [if_neg htr] at h
        rcases ih cur S h hS with hc | ⟨t2, ht2, hft2⟩
        · left; exact hc
        · right; exact ⟨t2, List.mem_cons_of_mem _ ht2, hft2⟩

/-- If no player of any team has the target id, the team loop returns the
variable unchanged. -/
theorem teamSearch_no_match (pid : String) :
    ∀ ts : List Team,
      (∀ t ∈ ts, ∀ p ∈ t.players.getD [], p.player_id ≠ some pid) →
      ∀ cur, teamSearch pid cur ts = cur := by
  intro ts
  induction ts with
  | nil => intro _ cur; rfl
  | cons t ts ih =>
    intro h cur
    have hf : findInTeam pid (t.players.getD []) = none :=
      findInTeam_none pid _ (h t (List.mem_cons_self _ _))
    simp only [teamSearch, hf]
    by_cases htr : pyTruthy cur
    · rw [if_pos htr]
    · rw [if_neg htr]
      exact ih (fun q hq => h q (List.mem_cons_of_mem _ hq)) cur

/-- Anatomy of a produced record: `processMatch` appends a record only when
the summary fields are truthy, the detail fetch succeeded, round 0 exists,
and the team search returned a truthy stats dict; the record is built by
`mkRecord` from exactly those pieces. -/
theorem processMatch_ok_some (statsOf : String → StatsResp) (pid nickname : String)
    (m : MatchSummary) (r : ExportRecord)
    (h : processMatch statsOf pid nickname m = Except.ok (some r)) :
    ∃ mid ts detail r0 S, m.match_id = some mid ∧ m.started_at = some ts ∧
      mid ≠ "" ∧ ts ≠ 0 ∧
      statsOf mid = StatsResp.ok detail ∧
      (detail.rounds.getD [Round.emptyDict]).head? = some r0 ∧
      teamSearch pid none (r0.teams.getD []) = some S ∧ S ≠ [] ∧
      r = mkRecord nickname mid ts r0 S := by
  obtain ⟨mido, tso⟩ := m
  cases mido with
  | none => simp [processMatch] at h
  | some mid =>
    cases tso with
    | none => simp [processMatch] at h
    | some ts =>
      simp only [processMatch] at h
      by_cases h0 : mid = "" ∨ ts = 0
      · rw [if_pos h0] at h; simp at h
      · rw [if_neg h0] at h
        cases hst : statsOf mid with
        | err e emsg => rw [hst] at h; simp at h
        | ok detail =>
          rw [hst] at h
          dsimp only at h
          cases hh : (detail.rounds.getD [Round.emptyDict]).head? with
          | none => rw [hh] at h; simp at h
          | some r0 =>
            rw [hh] at h
            dsimp only at h
            cases hsr : teamSearch pid none (r0.teams.getD []) with
            | none => rw [hsr] at h; simp at h
            | some S =>
              rw [hsr] at h
              dsimp only at h
              by_cases hS : S.isEmpty
              · rw [if_pos hS] at h; simp at h
              · rw [if_neg hS] at h
                refine ⟨mid, ts, detail, r0, S, rfl, rfl,
                  fun hc => h0 (Or.inl hc), fun hc => h0 (Or.inr hc),
                  hst, hh, hsr, by simpa using hS, ?_⟩
                injection h with h
                injection h with h
                exact h.symm

/-- Every record in a page processing result comes from one summary of the
page. -/
theorem processMatches_mem (statsOf : String → StatsResp) (pid nickname : String) :
    ∀ (ms : List MatchSummary) (recs : List ExportRecord),
      processMatches statsOf pid nickname ms = Except.ok recs →
      ∀ r ∈ recs, ∃ m ∈ ms, processMatch statsOf pid nickname m = Except.ok (some r) := by
  intro ms
  induction ms with
  | nil =>
    intro recs h r hr
    simp only [processMatches] at h
    injection h with h
    subst h
    simp at hr
  | cons m ms ih =>
    intro recs h r hr
    simp only [processMatches] at h
    cases hpm : processMatch statsOf pid nickname m with
    | error e => rw [hpm] at h; simp at h
    | ok rOpt =>
      rw [hpm] at h
      dsimp only at h
      cases hrest : processMatches statsOf pid nickname ms with
      | error e => rw [hrest] at h; simp at h
      | ok rest =>
        rw [hrest] at h
        dsimp only at h
        cases rOpt with
        | none =>
          injection h with h
          subst h
          obtain ⟨m2, hm2, hp2⟩ := ih rest hrest r hr
          exact ⟨m2, List.mem_cons_of_mem _ hm2, hp2⟩
        | some r0 =>
          injection h with h
          subst h
          rcases List.mem_cons.mp hr with hreq | hrtail
          · subst hreq; exact ⟨m, List.mem_cons_self _ _, hpm⟩
          · obtain ⟨m2, hm2, hp2⟩ := ih rest hrest r hrtail
            exact ⟨m2, List.mem_cons_of_mem _ hm2, hp2⟩

/-- Every record in a normally terminated run was in the initial accumulator
or produced from a summary of one of the consumed pages. -/
theorem fetchGamesLoop_ok_mem (statsOf : String → StatsResp) (pid nickname : String) :
    ∀ (pages : List HistoryResp) (acc recs : List ExportRecord) (n : Nat),
      fetchGamesLoop statsOf pid nickname pages acc = (FetchOutcome.okResult recs, n) →
      ∀ r ∈ recs, r ∈ acc ∨ ∃ itemsOpt, HistoryResp.ok itemsOpt ∈ pages ∧
        ∃ m ∈ itemsOpt.getD [], processMatch statsOf pid nickname m
          = Except.ok (some r) := by
  intro pages
  induction pages with
  | nil => intro acc recs n h; simp [fetchGamesLoop] at h
  | cons p rest ih =>
    intro acc recs n h r hr
    cases p with
    | err e emsg =>
      rw [fetchGamesLoop_cons_err] at h
      simp at h
    | ok itemsOpt =>
      by_cases hemp : (itemsOpt.getD []).isEmpty
      · have heq : fetchGamesLoop statsOf pid nickname (HistoryResp.ok itemsOpt :: rest) acc
            = (FetchOutcome.okResult acc, 1) := by
          simp only [fetchGamesLoop]
          rw [if_pos hemp]
        rw [heq] at h
        have hac : acc = recs := by
          have := congrArg Prod.fst h
          simpa using this
        subst hac
        exact Or.inl hr
      · simp only [fetchGamesLoop] at h
        rw [if_neg hemp] at h
        cases hq : processMatches statsOf pid nickname (itemsOpt.getD []) with
        | error ex => rw [hq] at h; simp at h
        | ok new =>
          rw [hq] at h
          dsimp only at h
          have h1 : (fetchGamesLoop statsOf pid nickname rest (acc ++ new)).1
              = FetchOutcome.okResult recs := by
            have := congrArg Prod.fst h
            simpa using this
          have hq2 : fetchGamesLoop statsOf pid nickname rest (acc ++ new)
              = (FetchOutcome.okResult recs,
                 (fetchGamesLoop statsOf pid nickname rest (acc ++ new)).2) := by
            rw [← h1]
          rcases ih (acc ++ new) recs _ hq2 r hr with hacc | ⟨io, hio, m, hm, hpm⟩
          · rcases List.mem_append.mp hacc with ha | hn
            · exact Or.inl ha
            · obtain ⟨m, hm, hpm⟩ := processMatches_mem statsOf pid nickname _ new hq r hn
              exact Or.inr ⟨itemsOpt, List.mem_cons_self _ _, m, hm, hpm⟩
          · exact Or.inr ⟨io, List.mem_cons_of_mem _ hio, m, hm, hpm⟩

/-- C5: every record of a normally terminated run comes from a match whose
detail (as returned by the detail lookup) contains, in round 0, a player
entry with the target player id and a truthy statistics sub-object, and the
record is built from those statistics; conversely a match whose detail
contains no player entry with the target id never produces a record. -/
theorem fetch_games_record_provenance :
    (∀ (statsOf : String → StatsResp) (pid game_id nickname : String)
        (pages : List HistoryResp) (recs : List ExportRecord) (n : Nat),
      fetch_games statsOf pid game_id nickname pages = (FetchOutcome.okResult recs, n) →
      ∀ r ∈ recs, ∃ mid ts detail r0 t p,
        statsOf mid = StatsResp.ok detail
        ∧ (detail.rounds.getD [Round.emptyDict]).head? = some r0
        ∧ t ∈ r0.teams.getD [] ∧ p ∈ t.players.getD []
        ∧ p.player_id = some pid
        ∧ p.player_stats.getD [] ≠ []
        ∧ r = mkRecord nickname mid ts r0 (p.player_stats.getD []))
    ∧ (∀ (statsOf : String → StatsResp) (pid nickname : String) (m : MatchSummary)
        (mid : String) (detail : MatchDetail) (r0 : Round),
        m.match_id = some mid → statsOf mid = StatsResp.ok detail →
        (detail.rounds.getD [Round.emptyDict]).head? = some r0 →
        (∀ t ∈ r0.teams.getD [], ∀ p ∈ t.players.getD [], p.player_id ≠ some pid) →
        ∀ r : ExportRecord, processMatch statsOf pid nickname m ≠ Except.ok (some r)) := by
  constructor
  · intro statsOf pid game_id nickname pages recs n h r hr
    rcases fetchGamesLoop_ok_mem statsOf pid nickname pages [] recs n h r hr with
      hacc | ⟨io, _, m, _, hpm⟩
    · simp at hacc
    · obtain ⟨mid, ts, detail, r0, S, _, _, _, _, hst, hh, hsrch, hS, hrec⟩ :=
        processMatch_ok_some statsOf pid nickname m r hpm
      rcases teamSearch_some_nonempty pid _ none S hsrch hS with hc | ⟨t, ht, hft⟩
      · exact absurd hc (by simp)
      · obtain ⟨p, hp, hpid, hps⟩ := findInTeam_some pid _ S hft
        exact ⟨mid, ts, detail, r0, t, p, hst, hh, ht, hp, hpid,
          by rw [hps]; exact hS, by rw [hps]; exact hrec⟩
  · intro statsOf pid nickname m mid detail r0 hmid hst hh hno r hcon
    obtain ⟨mid2, ts2, detail2, r02, S, hmid2, _, _, _, hst2, hh2, hsrch, _, _⟩ :=
      processMatch_ok_some statsOf pid nickname m r hcon
    rw [hmid] at hmid2
    injection hmid2 with e1
    subst e1
    rw [hst] at hst2
    injection hst2 with e2
    subst e2
    rw [hh] at hh2
    injection hh2 with e3
    subst e3
    rw [teamSearch_no_match pid (r0.teams.getD []) hno none] at hsrch
    exact Option.noConfusion hsrch

/-- Concrete detail used in the C5 witness: one round, one team, one player
with id "PW" and a non-empty stats dict. -/
def wPlayer : Player := ⟨some "PW", some [("Kills", "7")]⟩

def wRound0 : Round := ⟨some [⟨some [wPlayer]⟩], some [("Map", "de_mirage")]⟩

def wDetail : MatchDetail := ⟨some [wRound0]⟩

def wStatsOf : String → StatsResp := fun _ => StatsResp.ok wDetail

theorem fetch_games_record_provenance_witness :
    (∃ mid ts detail r0 t p,
        wStatsOf mid = StatsResp.ok detail
        ∧ (detail.rounds.getD [Round.emptyDict]).head? = some r0
        ∧ t ∈ r0.teams.getD [] ∧ p ∈ t.players.getD []
        ∧ p.player_id = some "PW"
        ∧ p.player_stats.getD [] ≠ []
        ∧ mkRecord "nick" "mw" 60 wRound0 [("Kills", "7")]
            = mkRecord "nick" mid ts r0 (p.player_stats.getD []))
    ∧ processMatch wStatsOf "QQ" "nick" ⟨some "mw", some 60⟩
        ≠ Except.ok (some (mkRecord "nick" "mw" 60 wRound0 [("Kills", "7")])) := by
  constructor
  · exact fetch_games_record_provenance.1 wStatsOf "PW" "g" "nick"
      [HistoryResp.ok (some [⟨some "mw", some 60⟩]), HistoryResp.ok (some [])]
      [mkRecord "nick" "mw" 60 wRound0 [("Kills", "7")]] 2 (by decide)
      (mkRecord "nick" "mw" 60 wRound0 [("Kills", "7")]) (by simp)
  · exact fetch_games_record_provenance.2 wStatsOf "QQ" "nick" ⟨some "mw", some 60⟩
      "mw" wDetail wRound0 rfl rfl rfl (by decide)
      (mkRecord "nick" "mw" 60 wRound0 [("Kills", "7")])

example : formatTimestamp 1748736000 = "2025-06-01 00:00:00" := by decide
example : formatTimestamp 1767225599 = "2025-12-31 23:59:59" := by decide
